import Mathlib

/-!
A verification development for the pilotetcher repository.

Part 1 embeds the `Progress` estimator class of
`lib/gui/pages/settings/controllers/settings.js` (the Pine64 half of the
file).  JavaScript numbers are modelled as exact rationals, sequential
method bodies as pure state-transition functions, `throw` as `Except.error`,
and the timer-driven callback discipline as an explicit event trace.

Part 2 models the Selection State Engine (`lib/gui/models/selection-state.js`
together with `lib/gui/models/drives.js`), which is exercised by
`tests/gui/models/selection-state.spec.js` but whose implementation file is
not part of the sources at hand; it is modelled from the specification and
validated against the concrete scenarios of the test file.
-/

/-! ## Part 1: the Progress estimator, embedded from settings.js -/

/-- One invocation of the `onProgress` callback: `(percentage, eta, speed)`. -/
structure Callback where
  pct : ℤ
  eta : ℤ
  speed : ℚ
  deriving Repr, DecidableEq

/-- The mutable fields of the `Progress` class instance. -/
structure ProgressState where
  totalSize : ℚ
  initialUpdateDelay : ℚ
  updatedSize : ℚ
  lastUpdatedSize : ℚ
  isUpdateStarted : Bool
  isCompleted : Bool
  averageSpeed : ℚ
  deriving Repr, DecidableEq

/-- `const PROGRESS_SMOOTHING_FACTOR = 0.005`. -/
def PROGRESS_SMOOTHING_FACTOR : ℚ := 0.005

/-- `const PROGRESS_UPDATE_INTERVAL = 1000` (milliseconds; fixed cadence). -/
def PROGRESS_UPDATE_INTERVAL : ℚ := 1000

/-- The constructor: `new Progress(onProgress, totalSize, initialUpdateDelay)`
with the source defaults `totalSize = 0`, `initialUpdateDelay = 2000`. -/
def mkProgress (totalSize : ℚ) (initialUpdateDelay : ℚ) : ProgressState :=
  { totalSize := totalSize
    initialUpdateDelay := initialUpdateDelay
    updatedSize := 0
    lastUpdatedSize := 0
    isUpdateStarted := false
    isCompleted := false
    averageSpeed := 0 }

/-- JavaScript `Math.round` (the rounding used by lodash `_.round`):
round half toward positive infinity. -/
def jround (q : ℚ) : ℤ := ⌊q + 1/2⌋

/-- lodash `_.clamp(n, lo, hi)`. -/
def jclamp (n lo hi : ℤ) : ℤ := max lo (min n hi)

/-- The `get percentage()` accessor: 0 when `totalSize <= 0`, otherwise
`_.clamp(_.round(updatedSize / totalSize * 100), 0, 99)`. -/
def Progress.percentage (s : ProgressState) : ℤ :=
  if s.totalSize ≤ 0 then 0
  else jclamp (jround (s.updatedSize / s.totalSize * 100)) 0 99

/-- `setTotalSize(size)`: throws once the update has started. -/
def Progress.setTotalSize (s : ProgressState) (size : ℚ) :
    Except String ProgressState :=
  if s.isUpdateStarted then .error "too late to set total size"
  else .ok { s with totalSize := size }

/-- `setStartSize(size)`: throws once the update has started. -/
def Progress.setStartSize (s : ProgressState) (size : ℚ) :
    Except String ProgressState :=
  if s.isUpdateStarted then .error "too late to set start size"
  else .ok { s with updatedSize := size, lastUpdatedSize := size }

/-- `update(size)`: unconditionally accumulates into `updatedSize`. -/
def Progress.update (s : ProgressState) (size : ℚ) : ProgressState :=
  { s with updatedSize := s.updatedSize + size }

/-- The body of `updateProgressInfo()`: computes the last-second delta,
conditionally folds it into the exponential average, derives the ETA, and —
unless the progress is completed — emits one callback.  (The re-arming of
the 1-second timer is represented by the event trace `runP` below.) -/
def Progress.tick (s : ProgressState) : ProgressState × List Callback :=
  let pendingSize := s.totalSize - s.updatedSize
  let lastSpeed := s.updatedSize - s.lastUpdatedSize
  let s₁ := { s with lastUpdatedSize := s.updatedSize }
  let s₂ :=
    if 0 < lastSpeed then
      { s₁ with averageSpeed :=
          PROGRESS_SMOOTHING_FACTOR * lastSpeed
            + (1 - PROGRESS_SMOOTHING_FACTOR) * s₁.averageSpeed }
    else s₁
  let eta : ℤ :=
    if 0 < s₂.averageSpeed ∧ 0 ≤ pendingSize then
      let e := ⌊pendingSize / s₂.averageSpeed⌋
      if e < 1 then 1 else e
    else -1
  if s₂.isCompleted then (s₂, [])
  else (s₂, [⟨Progress.percentage s₂, eta, lastSpeed⟩])

/-- `startUpdate()`: throws if already started, otherwise marks the update
started and emits one immediate callback with unknown ETA and speed. -/
def Progress.startUpdate (s : ProgressState) :
    Except String (ProgressState × List Callback) :=
  if s.isUpdateStarted then .error "progress already started"
  else .ok ({ s with isUpdateStarted := true },
    [⟨Progress.percentage s, -1, -1⟩])

/-- The body of the one-shot `setTimeout` callback inside `startUpdate()`:
seeds the average speed from the initial window, then runs one tick. -/
def Progress.initialTick (s : ProgressState) : ProgressState × List Callback :=
  let intervalInSecond := s.initialUpdateDelay / 1000
  let seeded := (s.updatedSize - s.lastUpdatedSize) / intervalInSecond
  Progress.tick
    { s with averageSpeed := seeded, lastUpdatedSize := s.updatedSize - seeded }

/-- `abort()`: marks the progress started and completed, then emits one final
callback with the current percentage and both ETA and speed set to −1. -/
def Progress.abort (s : ProgressState) : ProgressState × List Callback :=
  ({ s with isUpdateStarted := true, isCompleted := true },
    [⟨Progress.percentage s, -1, -1⟩])

/-- `complete()`: marks the progress started and completed, then emits one
final callback `(100, 0, 0)`. -/
def Progress.complete (s : ProgressState) : ProgressState × List Callback :=
  ({ s with isUpdateStarted := true, isCompleted := true },
    [⟨100, 0, 0⟩])

/-- The external stimuli a `Progress` instance can receive: the public
methods, plus the two timer firings (`initialTick` is the one-shot timer of
`startUpdate`, `tick` the repeating 1-second timer). -/
inductive PEvent
  | setTotalSize (n : ℚ)
  | setStartSize (n : ℚ)
  | startUpdate
  | update (n : ℚ)
  | initialTick
  | tick
  | abort
  | complete
  deriving Repr, DecidableEq

/-- One event applied to one state: the new state and the callbacks emitted,
or the thrown error. -/
def pstep (s : ProgressState) : PEvent → Except String (ProgressState × List Callback)
  | .setTotalSize n =>
    match Progress.setTotalSize s n with
    | .ok t => .ok (t, [])
    | .error err => .error err
  | .setStartSize n =>
    match Progress.setStartSize s n with
    | .ok t => .ok (t, [])
    | .error err => .error err
  | .startUpdate => Progress.startUpdate s
  | .update n => .ok (Progress.update s n, [])
  | .initialTick => .ok (Progress.initialTick s)
  | .tick => .ok (Progress.tick s)
  | .abort => .ok (Progress.abort s)
  | .complete => .ok (Progress.complete s)

/-- Runs a sequence of events, collecting every emitted callback.  A thrown
error leaves the state unchanged (the JavaScript methods throw before any
mutation). -/
def runP (s : ProgressState) : List PEvent → ProgressState × List Callback
  | [] => (s, [])
  | e :: es =>
    match pstep s e with
    | .ok (s', outs) =>
      let r := runP s' es
      (r.1, outs ++ r.2)
    | .error _ => runP s es

/-- Fixture: a freshly constructed estimator with unknown (zero) total size. -/
def p0 : ProgressState := mkProgress 0 2000

/-- Fixture: a running estimator with total size 1000 that has seen 500 bytes
since the last tick (the scenario of §8 of the specification). -/
def pHalf : ProgressState :=
  { totalSize := 1000
    initialUpdateDelay := 2000
    updatedSize := 500
    lastUpdatedSize := 0
    isUpdateStarted := true
    isCompleted := false
    averageSpeed := 0 }

/-! ## Part 2: the Selection State Engine, modelled from the spec

The implementation files `lib/gui/models/selection-state.js` and
`lib/gui/models/drives.js` are exercised by
`tests/gui/models/selection-state.spec.js` but are not among the sources at
hand.  Every definition below is therefore modelled from §3/§4.1 of the
specification and cross-checked against the concrete expectations of the
test file.  Loosely-typed JavaScript values that the engine type-checks at
the boundary are modelled by `JVal`. -/

/-- Modelled from the spec: a dynamically typed JavaScript value as far as
the engine's boundary validation distinguishes them (missing, string, or
number). -/
inductive JVal
  | undef
  | str (s : String)
  | num (n : ℚ)
  deriving Repr, DecidableEq

/-- Modelled from the spec: a mount point record with a file-system path. -/
structure MountPoint where
  path : String
  deriving Repr, DecidableEq

/-- Modelled from the spec: one OS size-variant Image with its checksum,
checksum type, recommended drive size and download URL. -/
structure OSImage where
  checksum : String
  checksumType : String
  recommendedDriveSize : ℚ
  url : String
  deriving Repr, DecidableEq

/-- Modelled from the spec: a Device descriptor (identity, display name,
size, write-protection flag, optional mount points, optional system flag),
plus the `recommendedImage` annotation maintained on catalog replacement.
The JavaScript field `protected` is a reserved word in Lean and is rendered
`protectedFlag`. -/
structure Drive where
  device : String
  name : String
  size : ℚ
  protectedFlag : Bool
  mountpoints : List MountPoint := []
  system : Bool := false
  recommendedImage : Option OSImage := none
  deriving Repr, DecidableEq

/-- Modelled from the spec: an OS Selection — a named OS with a version, a
logo and an ordered list of size-variant Images. -/
structure OSDescriptor where
  name : String
  version : String
  images : List OSImage
  logo : String
  deriving Repr, DecidableEq

/-- Modelled from the spec: the raw, not yet validated descriptor passed to
`setImage`; each field may be missing or carry a value of either runtime
type. -/
structure ImageDescriptor where
  path : JVal := .undef
  size : JVal := .undef
  url : JVal := .undef
  name : JVal := .undef
  logo : JVal := .undef
  supportUrl : JVal := .undef
  recommendedDriveSize : JVal := .undef
  deriving Repr, DecidableEq

/-- Modelled from the spec: a validated (effective) Image.  A plain image
populates the first seven fields; an OS-derived effective image populates
`path`/`size` from the variant URL and recommended size together with the
renamed checksum fields and the OS logo and version. -/
structure Image where
  path : String
  size : ℚ
  url : Option String := none
  name : Option String := none
  logo : Option String := none
  supportUrl : Option String := none
  recommendedDriveSize : Option ℚ := none
  version : Option String := none
  downloadChecksum : Option String := none
  downloadChecksumType : Option String := none
  deriving Repr, DecidableEq

/-- Modelled from the spec: the aggregate engine state — the Device Catalog
snapshot plus the three optional selections. -/
structure SelState where
  drives : List Drive := []
  drive : Option Drive := none
  image : Option Image := none
  os : Option OSDescriptor := none
  deriving Repr, DecidableEq

/-- Modelled from the spec: the distinct error conditions of §4.1/§7, one
constructor per reported condition. -/
inductive SelErr
  | invalidDrive (v : JVal)
  | driveNotAvailable (device : String)
  | driveWriteProtected
  | driveNotLargeEnough
  | missingImagePath
  | invalidImagePath (v : JVal)
  | missingImageSize
  | invalidImageSize (v : JVal)
  | invalidImageUrl (v : JVal)
  | invalidImageName (v : JVal)
  | invalidImageLogo (v : JVal)
  | invalidImageSupportUrl (v : JVal)
  deriving Repr, DecidableEq

/-- The string carried by a `JVal`, when it is one. -/
def JVal.asString : JVal → Option String
  | .str s => some s
  | _ => none

/-- The number carried by a `JVal`, when it is one. -/
def JVal.asNum : JVal → Option ℚ
  | .num n => some n
  | _ => none

/-- Modelled from the spec: one step of the scan for the variant with the
largest `recommendedDriveSize` not exceeding `S` (first encountered wins on
ties, via the strict comparison). -/
def betterFit (S : ℚ) (best : Option OSImage) (v : OSImage) : Option OSImage :=
  if v.recommendedDriveSize ≤ S then
    match best with
    | none => some v
    | some b =>
      if b.recommendedDriveSize < v.recommendedDriveSize then some v else some b
  else best

/-- Modelled from the spec: the variant with the largest
`recommendedDriveSize` that is `≤ S`, scanning in catalog order. -/
def pickBestFit (S : ℚ) : List OSImage → Option OSImage → Option OSImage
  | [], best => best
  | v :: rest, best => pickBestFit S rest (betterFit S best v)

/-- Modelled from the spec: one step of the scan for the variant with the
minimum `recommendedDriveSize` (first encountered wins on ties). -/
def smallerOf (best : Option OSImage) (v : OSImage) : Option OSImage :=
  match best with
  | none => some v
  | some b =>
    if v.recommendedDriveSize < b.recommendedDriveSize then some v else some b

/-- Modelled from the spec: the variant with the smallest
`recommendedDriveSize`, scanning in catalog order. -/
def pickSmallest : List OSImage → Option OSImage → Option OSImage
  | [], best => best
  | v :: rest, best => pickSmallest rest (smallerOf best v)

/-- Modelled from the spec: `getOSSmallestImage()`. -/
def getOSSmallestImage (s : SelState) : Option OSImage :=
  match s.os with
  | some o => pickSmallest o.images none
  | none => none

/-- Modelled from the spec: `getOSMinimumSize()`. -/
def getOSMinimumSize (s : SelState) : Option ℚ :=
  (getOSSmallestImage s).map (fun v => v.recommendedDriveSize)

/-- Modelled from the spec: the variant-selection rule for a device of size
`S` — largest fitting variant, else smallest variant as fallback. -/
def osVariantForSize (S : ℚ) (l : List OSImage) : Option OSImage :=
  match pickBestFit S l none with
  | some v => some v
  | none => pickSmallest l none

/-- Modelled from the spec: the variant-selection rule relative to an
optional selected device (no device selected falls back to the smallest
variant). -/
def osVariantFor (d : Option Drive) (l : List OSImage) : Option OSImage :=
  match d with
  | some dr => osVariantForSize dr.size l
  | none => pickSmallest l none

/-- Modelled from the spec: mapping a chosen variant into the effective
Image shape (`path` = variant URL, `size` = recommended drive size, checksum
fields renamed to `downloadChecksum`/`downloadChecksumType`, OS logo and
version carried over). -/
def variantToImage (o : OSDescriptor) (v : OSImage) : Image :=
  { path := v.url
    size := v.recommendedDriveSize
    logo := some o.logo
    version := some o.version
    downloadChecksum := some v.checksum
    downloadChecksumType := some v.checksumType }

/-- Modelled from the spec: `getImage()` — the OS-derived effective image
when an OS is selected (computed lazily against the currently selected
device), otherwise the plain image. -/
def getImage (s : SelState) : Option Image :=
  match s.os with
  | some o => (osVariantFor s.drive o.images).map (variantToImage o)
  | none => s.image

/-- Modelled from the spec: `getDrive()`. -/
def getDrive (s : SelState) : Option Drive := s.drive

/-- Modelled from the spec: `hasDrive()`. -/
def hasDrive (s : SelState) : Bool := s.drive.isSome

/-- Modelled from the spec: `hasImage()`. -/
def hasImage (s : SelState) : Bool := (getImage s).isSome

/-- Modelled from the spec: `getOS()`. -/
def getOS (s : SelState) : Option OSDescriptor := s.os

/-- Modelled from the spec: `hasOS()`. -/
def hasOS (s : SelState) : Bool := s.os.isSome

/-- Modelled from the spec: look an identity up in the catalog snapshot. -/
def findDrive (drives : List Drive) (device : String) : Option Drive :=
  drives.find? (fun d => d.device == device)

/-- Modelled from the spec: the effective image that a candidate device `d`
would be validated against (OS-derived for `d` when an OS is selected,
otherwise the plain image). -/
def effectiveImageFor (s : SelState) (d : Drive) : Option Image :=
  match s.os with
  | some o => (osVariantForSize d.size o.images).map (variantToImage o)
  | none => s.image

/-- Modelled from the spec: `setDrive(identity)` with its four error
conditions, checked in the order of §4.1; on success the selected Device is
replaced by the matched descriptor. -/
def setDrive (s : SelState) (v : JVal) : Except SelErr SelState :=
  match v with
  | .str device =>
    match findDrive s.drives device with
    | none => .error (.driveNotAvailable device)
    | some d =>
      if d.protectedFlag then .error .driveWriteProtected
      else
        match effectiveImageFor s d with
        | some img =>
          if d.size < img.size then .error .driveNotLargeEnough
          else .ok { s with drive := some d }
        | none => .ok { s with drive := some d }
  | _ => .error (.invalidDrive v)

/-- Modelled from the spec: `removeDrive()`. -/
def removeDrive (s : SelState) : SelState := { s with drive := none }

/-- Modelled from the spec: the boundary validation of `setImage` —
`path` required string, `size` required number, `url`/`name`/`logo`/
`supportUrl` strings when present; returns the validated path and size. -/
def validateImage (d : ImageDescriptor) : Except SelErr (String × ℚ) :=
  match d.path with
  | .undef => .error .missingImagePath
  | .num n => .error (.invalidImagePath (.num n))
  | .str p =>
    match d.size with
    | .undef => .error .missingImageSize
    | .str z => .error (.invalidImageSize (.str z))
    | .num n =>
      match d.url with
      | .num u => .error (.invalidImageUrl (.num u))
      | _ =>
        match d.name with
        | .num u => .error (.invalidImageName (.num u))
        | _ =>
          match d.logo with
          | .num u => .error (.invalidImageLogo (.num u))
          | _ =>
            match d.supportUrl with
            | .num u => .error (.invalidImageSupportUrl (.num u))
            | _ => .ok (p, n)

/-- Modelled from the spec: the stored Image built from a validated
descriptor. -/
def mkImage (p : String) (n : ℚ) (d : ImageDescriptor) : Image :=
  { path := p
    size := n
    url := d.url.asString
    name := d.name.asString
    logo := d.logo.asString
    supportUrl := d.supportUrl.asString
    recommendedDriveSize := d.recommendedDriveSize.asNum }

/-- Modelled from the spec: `dir` is a filesystem ancestor directory of the
path `p` (the directory path followed by a separator is a prefix of `p`,
compared character by character). -/
def isAncestorOf (dir p : String) : Bool :=
  List.isPrefixOf (dir ++ "/").data p.data

/-- Modelled from the spec: the three conditions under which storing an
image silently clears the selected device — (a) device smaller than the
image, (b) a declared recommended size the device does not meet, (c) a
mount-point path of the device is an ancestor directory of the image's
path. -/
def shouldClearDrive (d : Drive) (img : Image) : Bool :=
  decide (d.size < img.size) ||
  (match img.recommendedDriveSize with
   | some r => decide (d.size < r)
   | none => false) ||
  d.mountpoints.any (fun m => isAncestorOf m.path img.path)

/-- Modelled from the spec: `setImage(descriptor)` — validate, store the
image, clear any selected OS, and silently clear an incompatible selected
device. -/
def setImage (s : SelState) (d : ImageDescriptor) : Except SelErr SelState :=
  match validateImage d with
  | .error e => .error e
  | .ok (p, n) =>
    let img := mkImage p n d
    let s' := { s with image := some img, os := none }
    match s.drive with
    | some dr =>
      if shouldClearDrive dr img then .ok { s' with drive := none } else .ok s'
    | none => .ok s'

/-- Modelled from the spec: `removeImage()`. -/
def removeImage (s : SelState) : SelState := { s with image := none }

/-- Modelled from the spec: `setOS(osDescriptor)` stores the descriptor
unconditionally. -/
def setOS (s : SelState) (o : OSDescriptor) : SelState := { s with os := some o }

/-- Modelled from the spec: `removeOS()`. -/
def removeOS (s : SelState) : SelState := { s with os := none }

/-- Modelled from the spec: the options bag of `clear`. -/
structure ClearOptions where
  preserveImage : Bool := false
  deriving Repr, DecidableEq

/-- Modelled from the spec: `clear(options)` — always resets the Device
and, unless `preserveImage`, also resets the Image and the OS. -/
def clear (s : SelState) (o : ClearOptions) : SelState :=
  if o.preserveImage then { s with drive := none }
  else { s with drive := none, image := none, os := none }

/-- Modelled from the spec: recompute the `recommendedImage` annotation of
every device of a new snapshot when an OS is selected. -/
def annotateDrives (selOS : Option OSDescriptor) (l : List Drive) : List Drive :=
  match selOS with
  | some o =>
    l.map (fun d => { d with recommendedImage := osVariantForSize d.size o.images })
  | none => l

/-- Modelled from the spec: whether a device can be picked for the current
selection (not write-protected and large enough for the effective image it
would be flashed with).  Used by the lone-device auto-selection that the
test file exhibits on catalog replacement. -/
def isSelectableIn (s : SelState) (d : Drive) : Bool :=
  !d.protectedFlag &&
    (match effectiveImageFor s d with
     | some img => decide (img.size ≤ d.size)
     | none => true)

/-- Modelled from the spec: the Device Catalog replacement protocol —
(a) re-annotate every device of the new snapshot, (b) rebind the selection
by identity to the new descriptor, dropping it when the identity is gone;
additionally, when this leaves no selection and the snapshot consists of a
single selectable device, that device is auto-selected.  The auto-selection
step is not in the spec's protocol but is required by the test
"should able to map correct image while selected drive has being removed"
(`selection-state.spec.js` lines 1009–1040), where the remaining
`/dev/disk2` is returned by `getDrive()` after the selected `/dev/disk1`
disappears. -/
def setDrives (s : SelState) (l : List Drive) : SelState :=
  let annotated := annotateDrives s.os l
  let rebound :=
    match s.drive with
    | some d => findDrive annotated d.device
    | none => none
  let s' := { s with drives := annotated, drive := rebound }
  match s'.drive with
  | some _ => s'
  | none =>
    match annotated with
    | [d] => if isSelectableIn s' d then { s' with drive := some d } else s'
    | _ => s'

/-- Resolve a fallible call the way the JavaScript callers observe it: an
exception leaves the previous state in place. -/
def attemptSel (r : Except SelErr SelState) (s : SelState) : SelState :=
  match r with
  | .ok s' => s'
  | .error _ => s

/-! ### Fixtures from `selection-state.spec.js` -/

/-- The 4 GB variant of the test OS (`os.4gb.tar.gz`). -/
def osImg4 : OSImage :=
  { checksum := "e5b4ee5f5acf2613b197fe1edf29a80c"
    checksumType := "md5"
    recommendedDriveSize := 4000000000
    url := "http://path.to/os/os.4gb.tar.gz" }

/-- The 2 GB variant of the test OS (`os.2gb.tar.gz`). -/
def osImg2 : OSImage :=
  { checksum := "7b59f5efdb1bc2a9ea7f92adf3a91477"
    checksumType := "md5"
    recommendedDriveSize := 2000000000
    url := "http://path.to/os/os.2gb.tar.gz" }

/-- The 6 GB variant of the test OS (`os.6gb.tar.gz`). -/
def osImg6 : OSImage :=
  { checksum := "efc88c38dbba1ae202416c3330916549"
    checksumType := "md5"
    recommendedDriveSize := 6000000000
    url := "http://path.to/os/os.6gb.tar.gz" }

/-- The 8 GB variant of the test OS (`os.8gb.tar.gz`). -/
def osImg8 : OSImage :=
  { checksum := "aedba18eec9921a8fa4bee8bbf199b2b"
    checksumType := "md5"
    recommendedDriveSize := 8000000000
    url := "http://path.to/os/os.8gb.tar.gz" }

/-- The test OS with variants ordered {4, 2, 6, 8} GB. -/
def osFixture : OSDescriptor :=
  { name := "Custom Operation System"
    version := "1.0.0"
    images := [osImg4, osImg2, osImg6, osImg8]
    logo := "http://path.to/image/logo" }

/-- The 4 GB drive `/dev/disk1` of the two-drive test scenario. -/
def disk1 : Drive :=
  { device := "/dev/disk1", name := "USB Drive", size := 4000000000,
    protectedFlag := false }

/-- The 8 GB drive `/dev/disk2` of the two-drive test scenario. -/
def disk2 : Drive :=
  { device := "/dev/disk2", name := "USB Drive 2", size := 8000000000,
    protectedFlag := false }

/-- `/dev/disk1` as annotated by the catalog replacement. -/
def disk1A : Drive := { disk1 with recommendedImage := some osImg4 }

/-- `/dev/disk2` as annotated by the catalog replacement. -/
def disk2A : Drive := { disk2 with recommendedImage := some osImg8 }

/-- The empty selection. -/
def emptySel : SelState := {}

/-- The engine after `setOS(osFixture)`. -/
def sWithOS : SelState := setOS emptySel osFixture

/-- The engine after `setDrives([disk1, disk2])` with the OS selected. -/
def sTwoDrives : SelState := setDrives sWithOS [disk1, disk2]

/-- The engine after additionally selecting `/dev/disk1`. -/
def sSelected : SelState :=
  attemptSel (setDrive sTwoDrives (.str "/dev/disk1")) sTwoDrives

/-- The engine after the catalog replacement that removes the selected
`/dev/disk1` (test lines 1009–1040). -/
def sAfterRemoval : SelState := setDrives sSelected [disk2]

/-- The 999999999-byte drive of the plain-image de-selection test. -/
def smallDrive : Drive :=
  { device := "/dev/disk1", name := "USB Drive", size := 999999999,
    protectedFlag := false }

/-- The engine with `smallDrive` in the catalog and selected, no image or
OS. -/
def sSmallDrive : SelState :=
  { drives := [smallDrive], drive := some smallDrive }

/-- The too-large image descriptor of that test (9999999999 bytes). -/
def bigDesc : ImageDescriptor :=
  { path := .str "foo.img", size := .num 9999999999 }

/-! ### Basic facts about the percentage -/

theorem percentage_le_99 (s : ProgressState) : Progress.percentage s ≤ 99 := by
  unfold Progress.percentage jclamp
  split
  · norm_num
  · exact le_trans (max_le (by norm_num) (min_le_right _ _)) (le_refl 99)

theorem percentage_ne_100 (s : ProgressState) : Progress.percentage s ≠ 100 := by
  have h := percentage_le_99 s
  omega

theorem tick_totalSize (s : ProgressState) :
    (Progress.tick s).1.totalSize = s.totalSize := by
  unfold Progress.tick
  dsimp only
  split
  · split <;> rfl
  · split <;> rfl

theorem tick_updatedSize (s : ProgressState) :
    (Progress.tick s).1.updatedSize = s.updatedSize := by
  unfold Progress.tick
  dsimp only
  split
  · split <;> rfl
  · split <;> rfl

theorem tick_isCompleted (s : ProgressState) :
    (Progress.tick s).1.isCompleted = s.isCompleted := by
  unfold Progress.tick
  dsimp only
  split
  · split <;> rfl
  · split <;> rfl

theorem tick_isUpdateStarted (s : ProgressState) :
    (Progress.tick s).1.isUpdateStarted = s.isUpdateStarted := by
  unfold Progress.tick
  dsimp only
  split
  · split <;> rfl
  · split <;> rfl

theorem tick_silent_of_completed (s : ProgressState)
    (h : s.isCompleted = true) : (Progress.tick s).2 = [] := by
  unfold Progress.tick
  dsimp only
  split <;> rfl

theorem tick_pct_le_99 (s : ProgressState) :
    ∀ c ∈ (Progress.tick s).2, c.pct ≤ 99 := by
  intro c hc
  unfold Progress.tick at hc
  dsimp only at hc
  split at hc <;> split at hc <;> simp at hc <;> subst hc <;>
    exact percentage_le_99 _

/-- Claim C7.  The reported percentage is 0 whenever `totalSize ≤ 0` and
otherwise is `round(updatedSize / totalSize * 100)` clamped to `[0, 99]`;
moreover no event other than `complete()` ever emits a callback whose
percentage is 100. -/
theorem C7_percentage_clamped_and_100_reserved (s : ProgressState) :
    (s.totalSize ≤ 0 → Progress.percentage s = 0) ∧
    (0 < s.totalSize →
      Progress.percentage s =
        max 0 (min (jround (s.updatedSize / s.totalSize * 100)) 99)) ∧
    (∀ e s' outs c, pstep s e = .ok (s', outs) → c ∈ outs →
      c.pct = 100 → e = PEvent.complete) := by
  refine ⟨?_, ?_, ?_⟩
  · intro h
    unfold Progress.percentage
    rw [if_pos h]
  · intro h
    unfold Progress.percentage jclamp
    rw [if_neg (by exact not_le.mpr h)]
  · intro e s' outs c hstep hmem hpct
    cases e with
    | setTotalSize n =>
      simp only [pstep] at hstep
      cases hst : Progress.setTotalSize s n with
      | error err => rw [hst] at hstep; simp at hstep
      | ok t =>
        rw [hst] at hstep
        simp only [Except.ok.injEq, Prod.mk.injEq] at hstep
        rw [← hstep.2] at hmem
        exact absurd hmem (List.not_mem_nil c)
    | setStartSize n =>
      simp only [pstep] at hstep
      cases hst : Progress.setStartSize s n with
      | error err => rw [hst] at hstep; simp at hstep
      | ok t =>
        rw [hst] at hstep
        simp only [Except.ok.injEq, Prod.mk.injEq] at hstep
        rw [← hstep.2] at hmem
        exact absurd hmem (List.not_mem_nil c)
    | startUpdate =>
      simp only [pstep, Progress.startUpdate] at hstep
      split at hstep
      · simp at hstep
      · simp only [Except.ok.injEq, Prod.mk.injEq] at hstep
        rw [← hstep.2] at hmem
        rw [List.mem_singleton] at hmem
        subst hmem
        exact absurd hpct (percentage_ne_100 s)
    | update n =>
      simp only [pstep, Except.ok.injEq, Prod.mk.injEq] at hstep
      rw [← hstep.2] at hmem
      exact absurd hmem (List.not_mem_nil c)
    | initialTick =>
      simp only [pstep, Progress.initialTick, Except.ok.injEq] at hstep
      rw [show outs = (s', outs).2 from rfl, ← hstep] at hmem
      have := tick_pct_le_99 _ c hmem
      omega
    | tick =>
      simp only [pstep, Except.ok.injEq] at hstep
      have houts : outs = (Progress.tick s).2 := by rw [hstep]
      rw [houts] at hmem
      have := tick_pct_le_99 _ c hmem
      omega
    | abort =>
      simp only [pstep, Progress.abort, Except.ok.injEq, Prod.mk.injEq] at hstep
      rw [← hstep.2] at hmem
      rw [List.mem_singleton] at hmem
      subst hmem
      exact absurd hpct (percentage_ne_100 s)
    | complete => rfl

/-- Witness for C7 at `totalSize = 0` (ambiguous case) and at
`totalSize = 1000`, `updatedSize = 500`. -/
theorem C7_witness :
    Progress.percentage p0 = 0 ∧ Progress.percentage pHalf = 50 := by
  constructor
  · exact (C7_percentage_clamped_and_100_reserved p0).1 (by norm_num [p0, mkProgress])
  · have h := (C7_percentage_clamped_and_100_reserved pHalf).2.1 (by norm_num [pHalf])
    rw [h]
    norm_num [pHalf, jround]

theorem tick_averageSpeed (s : ProgressState) :
    (Progress.tick s).1.averageSpeed =
      if 0 < s.updatedSize - s.lastUpdatedSize then
        PROGRESS_SMOOTHING_FACTOR * (s.updatedSize - s.lastUpdatedSize)
          + (1 - PROGRESS_SMOOTHING_FACTOR) * s.averageSpeed
      else s.averageSpeed := by
  unfold Progress.tick
  dsimp only
  split
  case isTrue h => split <;> rfl
  case isFalse h => split <;> rfl

theorem min_eta_eq (e : ℤ) : (if e < 1 then 1 else e) = max 1 e := by
  rcases le_or_lt 1 e with h | h
  · rw [if_neg (not_lt.mpr h), max_eq_right h]
  · rw [if_pos h, max_eq_left (le_of_lt h)]

theorem tick_fst (s : ProgressState) :
    (Progress.tick s).1 =
      { s with
          lastUpdatedSize := s.updatedSize
          averageSpeed :=
            if 0 < s.updatedSize - s.lastUpdatedSize then
              PROGRESS_SMOOTHING_FACTOR * (s.updatedSize - s.lastUpdatedSize)
                + (1 - PROGRESS_SMOOTHING_FACTOR) * s.averageSpeed
            else s.averageSpeed } := by
  unfold Progress.tick
  dsimp only
  split
  case isTrue h => split <;> rfl
  case isFalse h => split <;> rfl

theorem tick_snd_of_not_completed (s : ProgressState) (h : s.isCompleted = false) :
    (Progress.tick s).2 =
      [⟨Progress.percentage (Progress.tick s).1,
        if 0 < (Progress.tick s).1.averageSpeed ∧ 0 ≤ s.totalSize - s.updatedSize
        then max 1 ⌊(s.totalSize - s.updatedSize) / (Progress.tick s).1.averageSpeed⌋
        else -1,
        s.updatedSize - s.lastUpdatedSize⟩] := by
  rw [tick_fst]
  conv_lhs => unfold Progress.tick
  dsimp only
  split
  case isTrue h1 => simp [h, min_eta_eq]
  case isFalse h1 => simp [h, min_eta_eq]

/-- Claim C8.  On a periodic tick, with `lastSpeed = updatedSize −
lastUpdatedSize`: the smoothed average becomes
`0.005·lastSpeed + 0.995·previousAverage` exactly when `lastSpeed > 0` and is
unchanged otherwise; and the callback of a running tick reports
`eta = max 1 ⌊pending / averageSpeed⌋` when the (updated) average speed is
positive and `pending = totalSize − updatedSize` is nonnegative, and the
sentinel −1 otherwise, alongside `lastSpeed` as the reported speed. -/
theorem C8_tick_smoothing_and_eta (s : ProgressState) :
    (0 < s.updatedSize - s.lastUpdatedSize →
      (Progress.tick s).1.averageSpeed =
        0.005 * (s.updatedSize - s.lastUpdatedSize) + 0.995 * s.averageSpeed) ∧
    (s.updatedSize - s.lastUpdatedSize ≤ 0 →
      (Progress.tick s).1.averageSpeed = s.averageSpeed) ∧
    (s.isCompleted = false →
      (Progress.tick s).2 =
        [⟨Progress.percentage (Progress.tick s).1,
          if 0 < (Progress.tick s).1.averageSpeed ∧ 0 ≤ s.totalSize - s.updatedSize
          then max 1 ⌊(s.totalSize - s.updatedSize) / (Progress.tick s).1.averageSpeed⌋
          else -1,
          s.updatedSize - s.lastUpdatedSize⟩]) := by
  refine ⟨?_, ?_, tick_snd_of_not_completed s⟩
  · intro h
    rw [tick_averageSpeed, if_pos h]
    norm_num [PROGRESS_SMOOTHING_FACTOR]
  · intro h
    rw [tick_averageSpeed, if_neg (not_lt.mpr h)]

/-- Witness for C8: total 1000, 500 bytes seen in the last window. -/
theorem C8_witness :
    (Progress.tick pHalf).1.averageSpeed = 5/2 ∧
    (Progress.tick pHalf).2 = [⟨50, 200, 500⟩] := by
  have havg : (Progress.tick pHalf).1.averageSpeed = 5/2 := by
    rw [(C8_tick_smoothing_and_eta pHalf).1 (by norm_num [pHalf])]
    norm_num [pHalf, PROGRESS_SMOOTHING_FACTOR]
  refine ⟨havg, ?_⟩
  rw [(C8_tick_smoothing_and_eta pHalf).2.2 rfl, havg]
  rw [show Progress.percentage (Progress.tick pHalf).1 = 50 by
    unfold Progress.percentage
    rw [tick_totalSize, tick_updatedSize]
    norm_num [pHalf, jclamp, jround]]
  norm_num [pHalf]

theorem runP_silent (es : List PEvent) :
    ∀ s : ProgressState, s.isUpdateStarted = true → s.isCompleted = true →
      (∀ e ∈ es, e ≠ PEvent.abort ∧ e ≠ PEvent.complete) →
      (runP s es).2 = [] := by
  induction es with
  | nil => intro s _ _ _; rfl
  | cons e es ih =>
    intro s hs hc hterm
    have he := hterm e (List.mem_cons_self e es)
    have hrest : ∀ x ∈ es, x ≠ PEvent.abort ∧ x ≠ PEvent.complete :=
      fun x hx => hterm x (List.mem_cons_of_mem e hx)
    cases e with
    | setTotalSize n =>
      have hp : pstep s (PEvent.setTotalSize n) = .error "too late to set total size" := by
        simp [pstep, Progress.setTotalSize, hs]
      rw [runP, hp]
      exact ih s hs hc hrest
    | setStartSize n =>
      have hp : pstep s (PEvent.setStartSize n) = .error "too late to set start size" := by
        simp [pstep, Progress.setStartSize, hs]
      rw [runP, hp]
      exact ih s hs hc hrest
    | startUpdate =>
      have hp : pstep s PEvent.startUpdate = .error "progress already started" := by
        simp [pstep, Progress.startUpdate, hs]
      rw [runP, hp]
      exact ih s hs hc hrest
    | update n =>
      have hp : pstep s (PEvent.update n) = .ok (Progress.update s n, []) := rfl
      rw [runP, hp]
      show ([] ++ (runP (Progress.update s n) es).2) = []
      rw [List.nil_append]
      exact ih (Progress.update s n) hs hc hrest
    | initialTick =>
      have hp : pstep s PEvent.initialTick = .ok (Progress.initialTick s) := rfl
      rw [runP, hp]
      show ((Progress.initialTick s).2 ++ (runP (Progress.initialTick s).1 es).2) = []
      have hsil : (Progress.initialTick s).2 = [] := tick_silent_of_completed _ hc
      rw [hsil, List.nil_append]
      refine ih (Progress.initialTick s).1 ?_ ?_ hrest
      · show (Progress.tick _).1.isUpdateStarted = true
        rw [tick_isUpdateStarted]
        exact hs
      · show (Progress.tick _).1.isCompleted = true
        rw [tick_isCompleted]
        exact hc
    | tick =>
      have hp : pstep s PEvent.tick = .ok (Progress.tick s) := rfl
      rw [runP, hp]
      show ((Progress.tick s).2 ++ (runP (Progress.tick s).1 es).2) = []
      rw [tick_silent_of_completed s hc, List.nil_append]
      refine ih (Progress.tick s).1 ?_ ?_ hrest
      · rw [tick_isUpdateStarted]; exact hs
      · rw [tick_isCompleted]; exact hc
    | abort => exact absurd rfl he.1
    | complete => exact absurd rfl he.2

/-- Claim C9.  `abort()` emits exactly one callback carrying the current
percentage with ETA and speed −1; `complete()` emits exactly one callback
`(100, 0, 0)`; and starting from either terminal state, no sequence of
further non-terminal events (method calls or already-queued timer ticks)
ever emits another callback. -/
theorem C9_terminal_transitions (s : ProgressState) (es : List PEvent)
    (hterm : ∀ e ∈ es, e ≠ PEvent.abort ∧ e ≠ PEvent.complete) :
    (Progress.abort s).2 = [⟨Progress.percentage s, -1, -1⟩] ∧
    (Progress.complete s).2 = [⟨100, 0, 0⟩] ∧
    (runP (Progress.abort s).1 es).2 = [] ∧
    (runP (Progress.complete s).1 es).2 = [] :=
  ⟨rfl, rfl, runP_silent es _ rfl rfl hterm, runP_silent es _ rfl rfl hterm⟩

/-- Witness for C9: after a terminal transition, a queued tick, an update and
a startUpdate attempt all stay silent. -/
theorem C9_witness :
    (Progress.abort pHalf).2 = [⟨Progress.percentage pHalf, -1, -1⟩] ∧
    (Progress.complete pHalf).2 = [⟨100, 0, 0⟩] ∧
    (runP (Progress.abort pHalf).1
      [PEvent.tick, PEvent.update 7, PEvent.startUpdate]).2 = [] ∧
    (runP (Progress.complete pHalf).1
      [PEvent.tick, PEvent.update 7, PEvent.startUpdate]).2 = [] := by
  refine C9_terminal_transitions pHalf _ ?_
  intro e hmem
  fin_cases hmem <;> refine ⟨?_, ?_⟩ <;> intro h <;> cases h

/-- Claim C10.  After `abort()` or `complete()` — even when `startUpdate()`
was never called — `setTotalSize`, `setStartSize` and `startUpdate` all
throw, while `update` never throws in any state and merely adds its argument
to the accumulated size. -/
theorem C10_post_terminal_lifecycle (s t : ProgressState) (n d : ℚ)
    (ht : t = (Progress.abort s).1 ∨ t = (Progress.complete s).1) :
    Progress.setTotalSize t n = .error "too late to set total size" ∧
    Progress.setStartSize t n = .error "too late to set start size" ∧
    Progress.startUpdate t = .error "progress already started" ∧
    (∀ u : ProgressState, pstep u (PEvent.update d) =
      .ok ({ u with updatedSize := u.updatedSize + d }, [])) := by
  have hts : t.isUpdateStarted = true := by
    rcases ht with h | h <;> rw [h] <;> rfl
  refine ⟨?_, ?_, ?_, fun u => rfl⟩ <;>
    simp [Progress.setTotalSize, Progress.setStartSize, Progress.startUpdate, hts]

/-- Witness for C10 on a never-started estimator aborted right away. -/
theorem C10_witness :
    Progress.setTotalSize (Progress.abort p0).1 5 =
      .error "too late to set total size" ∧
    Progress.setStartSize (Progress.abort p0).1 5 =
      .error "too late to set start size" ∧
    Progress.startUpdate (Progress.abort p0).1 =
      .error "progress already started" ∧
    pstep p0 (PEvent.update 3) =
      .ok ({ p0 with updatedSize := p0.updatedSize + 3 }, []) := by
  have h := C10_post_terminal_lifecycle p0 (Progress.abort p0).1 5 3 (Or.inl rfl)
  exact ⟨h.1, h.2.1, h.2.2.1, h.2.2.2 p0⟩

/-! ### The variant-selection scans -/

theorem pickSmallest_from (l : List OSImage) :
    ∀ b : OSImage, ∃ m, pickSmallest l (some b) = some m ∧
      (m = b ∨ m ∈ l) ∧ m.recommendedDriveSize ≤ b.recommendedDriveSize ∧
      ∀ w ∈ l, m.recommendedDriveSize ≤ w.recommendedDriveSize := by
  induction l with
  | nil =>
    intro b
    exact ⟨b, rfl, Or.inl rfl, le_refl _, by simp⟩
  | cons v rest ih =>
    intro b
    by_cases h : v.recommendedDriveSize < b.recommendedDriveSize
    · obtain ⟨m, hm, hmem, hle, hall⟩ := ih v
      refine ⟨m, ?_, ?_, le_trans hle (le_of_lt h), ?_⟩
      · rw [pickSmallest, show smallerOf (some b) v = some v by
          simp [smallerOf, h]]
        exact hm
      · rcases hmem with rfl | hmem
        · exact Or.inr (List.mem_cons_self _ _)
        · exact Or.inr (List.mem_cons_of_mem _ hmem)
      · intro w hw
        rcases List.mem_cons.mp hw with rfl | hw
        · exact hle
        · exact hall w hw
    · obtain ⟨m, hm, hmem, hle, hall⟩ := ih b
      refine ⟨m, ?_, ?_, hle, ?_⟩
      · rw [pickSmallest, show smallerOf (some b) v = some b by
          simp [smallerOf, h]]
        exact hm
      · rcases hmem with rfl | hmem
        · exact Or.inl rfl
        · exact Or.inr (List.mem_cons_of_mem _ hmem)
      · intro w hw
        rcases List.mem_cons.mp hw with rfl | hw
        · exact le_trans hle (not_lt.mp h)
        · exact hall w hw

theorem pickSmallest_spec (l : List OSImage) (hl : l ≠ []) :
    ∃ m, pickSmallest l none = some m ∧ m ∈ l ∧
      ∀ w ∈ l, m.recommendedDriveSize ≤ w.recommendedDriveSize := by
  cases l with
  | nil => exact absurd rfl hl
  | cons v rest =>
    obtain ⟨m, hm, hmem, hle, hall⟩ := pickSmallest_from rest v
    refine ⟨m, ?_, ?_, ?_⟩
    · rw [pickSmallest]
      exact hm
    · rcases hmem with rfl | hmem
      · exact List.mem_cons_self _ _
      · exact List.mem_cons_of_mem _ hmem
    · intro w hw
      rcases List.mem_cons.mp hw with rfl | hw
      · exact hle
      · exact hall w hw

theorem pickBestFit_from (S : ℚ) (l : List OSImage) :
    ∀ b : OSImage, b.recommendedDriveSize ≤ S →
      ∃ m, pickBestFit S l (some b) = some m ∧
        (m = b ∨ m ∈ l) ∧ m.recommendedDriveSize ≤ S ∧
        b.recommendedDriveSize ≤ m.recommendedDriveSize ∧
        ∀ w ∈ l, w.recommendedDriveSize ≤ S →
          w.recommendedDriveSize ≤ m.recommendedDriveSize := by
  induction l with
  | nil =>
    intro b hb
    exact ⟨b, rfl, Or.inl rfl, hb, le_refl _, by simp⟩
  | cons v rest ih =>
    intro b hb
    by_cases hv : v.recommendedDriveSize ≤ S
    · by_cases hbv : b.recommendedDriveSize < v.recommendedDriveSize
      · obtain ⟨m, hm, hmem, hmS, hgb, hall⟩ := ih v hv
        refine ⟨m, ?_, ?_, hmS, le_trans (le_of_lt hbv) hgb, ?_⟩
        · rw [pickBestFit, show betterFit S (some b) v = some v by
            simp [betterFit, hv, hbv]]
          exact hm
        · rcases hmem with rfl | hmem
          · exact Or.inr (List.mem_cons_self _ _)
          · exact Or.inr (List.mem_cons_of_mem _ hmem)
        · intro w hw hwS
          rcases List.mem_cons.mp hw with rfl | hw
          · exact hgb
          · exact hall w hw hwS
      · obtain ⟨m, hm, hmem, hmS, hgb, hall⟩ := ih b hb
        refine ⟨m, ?_, ?_, hmS, hgb, ?_⟩
        · rw [pickBestFit, show betterFit S (some b) v = some b by
            simp [betterFit, hv, hbv]]
          exact hm
        · rcases hmem with rfl | hmem
          · exact Or.inl rfl
          · exact Or.inr (List.mem_cons_of_mem _ hmem)
        · intro w hw hwS
          rcases List.mem_cons.mp hw with rfl | hw
          · exact le_trans (not_lt.mp hbv) hgb
          · exact hall w hw hwS
    · obtain ⟨m, hm, hmem, hmS, hgb, hall⟩ := ih b hb
      refine ⟨m, ?_, ?_, hmS, hgb, ?_⟩
      · rw [pickBestFit, show betterFit S (some b) v = some b by
          simp [betterFit, hv]]
        exact hm
      · rcases hmem with rfl | hmem
        · exact Or.inl rfl
        · exact Or.inr (List.mem_cons_of_mem _ hmem)
      · intro w hw hwS
        rcases List.mem_cons.mp hw with rfl | hw
        · exact absurd hwS hv
        · exact hall w hw hwS

theorem pickBestFit_spec (S : ℚ) (l : List OSImage) :
    (pickBestFit S l none = none ∧ ∀ w ∈ l, ¬ w.recommendedDriveSize ≤ S) ∨
    (∃ m, pickBestFit S l none = some m ∧ m ∈ l ∧ m.recommendedDriveSize ≤ S ∧
      ∀ w ∈ l, w.recommendedDriveSize ≤ S →
        w.recommendedDriveSize ≤ m.recommendedDriveSize) := by
  induction l with
  | nil => exact Or.inl ⟨rfl, by simp⟩
  | cons v rest ih =>
    by_cases hv : v.recommendedDriveSize ≤ S
    · right
      obtain ⟨m, hm, hmem, hmS, hgb, hall⟩ := pickBestFit_from S rest v hv
      refine ⟨m, ?_, ?_, hmS, ?_⟩
      · rw [pickBestFit, show betterFit S none v = some v by simp [betterFit, hv]]
        exact hm
      · rcases hmem with rfl | hmem
        · exact List.mem_cons_self _ _
        · exact List.mem_cons_of_mem _ hmem
      · intro w hw hwS
        rcases List.mem_cons.mp hw with rfl | hw
        · exact hgb
        · exact hall w hw hwS
    · have hred : pickBestFit S (v :: rest) none = pickBestFit S rest none := by
        rw [pickBestFit, show betterFit S none v = none by simp [betterFit, hv]]
      rcases ih with ⟨hnone, hall⟩ | ⟨m, hm, hmem, hmS, hall⟩
      · left
        refine ⟨by rw [hred]; exact hnone, ?_⟩
        intro w hw
        rcases List.mem_cons.mp hw with rfl | hw
        · exact hv
        · exact hall w hw
      · right
        refine ⟨m, by rw [hred]; exact hm, List.mem_cons_of_mem _ hmem, hmS, ?_⟩
        intro w hw hwS
        rcases List.mem_cons.mp hw with rfl | hw
        · exact absurd hwS hv
        · exact hall w hw hwS

/-- Claim C1.  With an OS selected (non-empty variant list), `getImage()`
returns some variant of the OS mapped into the effective-Image shape
(`path` = variant URL, `size` = variant `recommendedDriveSize`, checksum
fields renamed to `downloadChecksum`/`downloadChecksumType`, OS logo and
version carried over); with a device of size `S` selected, the chosen
variant is the one with the largest `recommendedDriveSize ≤ S` when one
exists and the smallest-`recommendedDriveSize` variant otherwise, and with
no device selected it is the smallest variant. -/
theorem C1_getImage_variant_selection (s : SelState) (o : OSDescriptor)
    (hos : s.os = some o) (hne : o.images ≠ []) :
    ∃ v ∈ o.images,
      getImage s = some
        { path := v.url
          size := v.recommendedDriveSize
          logo := some o.logo
          version := some o.version
          downloadChecksum := some v.checksum
          downloadChecksumType := some v.checksumType } ∧
      (∀ d, s.drive = some d →
        ((∃ w ∈ o.images, w.recommendedDriveSize ≤ d.size) →
          v.recommendedDriveSize ≤ d.size ∧
          ∀ w ∈ o.images, w.recommendedDriveSize ≤ d.size →
            w.recommendedDriveSize ≤ v.recommendedDriveSize) ∧
        ((∀ w ∈ o.images, ¬ w.recommendedDriveSize ≤ d.size) →
          ∀ w ∈ o.images, v.recommendedDriveSize ≤ w.recommendedDriveSize)) ∧
      (s.drive = none →
        ∀ w ∈ o.images, v.recommendedDriveSize ≤ w.recommendedDriveSize) := by
  unfold getImage
  rw [hos]
  cases hd : s.drive with
  | none =>
    obtain ⟨m, hm, hmem, hall⟩ := pickSmallest_spec o.images hne
    refine ⟨m, hmem, ?_, ?_, fun _ => hall⟩
    · show (osVariantFor none o.images).map (variantToImage o) = _
      rw [show osVariantFor none o.images = pickSmallest o.images none from rfl, hm]
      rfl
    · intro d hcontra
      exact absurd hcontra (by simp)
  | some dr =>
    rcases pickBestFit_spec dr.size o.images with ⟨hnone, hall⟩ | ⟨m, hm, hmem, hmS, hall⟩
    · obtain ⟨m, hm2, hmem2, hall2⟩ := pickSmallest_spec o.images hne
      refine ⟨m, hmem2, ?_, ?_, ?_⟩
      · show (osVariantFor (some dr) o.images).map (variantToImage o) = _
        rw [show osVariantFor (some dr) o.images
            = osVariantForSize dr.size o.images from rfl]
        unfold osVariantForSize
        rw [hnone, hm2]
        rfl
      · intro d hd'
        obtain rfl : dr = d := Option.some.inj hd'
        constructor
        · rintro ⟨w, hw, hwS⟩
          exact absurd hwS (hall w hw)
        · intro _
          exact hall2
      · intro hcontra
        exact absurd hcontra (by simp)
    · refine ⟨m, hmem, ?_, ?_, ?_⟩
      · show (osVariantFor (some dr) o.images).map (variantToImage o) = _
        rw [show osVariantFor (some dr) o.images
            = osVariantForSize dr.size o.images from rfl]
        unfold osVariantForSize
        rw [hm]
        rfl
      · intro d hd'
        obtain rfl : dr = d := Option.some.inj hd'
        constructor
        · intro _
          exact ⟨hmS, hall⟩
        · intro hnone2
          exact absurd hmS (hnone2 m hmem)
      · intro hcontra
        exact absurd hcontra (by simp)

/-- Witness for C1 in the two-drive test scenario with `/dev/disk1`
(4 GB) selected: some variant of the fixture OS is returned in the
effective-Image shape. -/
theorem C1_witness :
    ∃ v ∈ osFixture.images,
      getImage sSelected = some
        { path := v.url
          size := v.recommendedDriveSize
          logo := some osFixture.logo
          version := some osFixture.version
          downloadChecksum := some v.checksum
          downloadChecksumType := some v.checksumType } := by
  obtain ⟨v, hmem, himg, _, _⟩ :=
    C1_getImage_variant_selection sSelected osFixture rfl (by simp [osFixture])
  exact ⟨v, hmem, himg⟩

/-- Counterexample to claim C2 as stated.  In the scenario of the test
"should able to map correct image while selected drive has being removed"
(catalog `[disk1, disk2]` with `/dev/disk1` selected, replaced by
`[disk2]`), the previously selected identity is absent from the new
snapshot, yet the selection is NOT absent afterwards: `hasDrive()` is true
and `getDrive()` returns the freshly annotated `/dev/disk2`, exactly as the
test expects. -/
theorem C2_counterexample :
    (sSelected.drive = some disk1A ∧
      findDrive (annotateDrives sSelected.os [disk2]) disk1A.device = none) ∧
    hasDrive sAfterRemoval = true ∧
    getDrive sAfterRemoval = some disk2A := by
  exact ⟨⟨rfl, rfl⟩, rfl, rfl⟩

/-- Claim C2 (amended).  On a Device Catalog replacement: if a device with
the previously selected identity appears in the new snapshot, the selection
is rebound to that new (annotated) descriptor, so a stale copy is never
returned; if the identity is absent, the selection is dropped and stays
absent — unless the new snapshot consists of exactly one selectable device,
which is then auto-selected. -/
theorem C2_catalog_replacement (s : SelState) (l : List Drive) (d : Drive)
    (hsel : s.drive = some d) :
    (∀ d', findDrive (annotateDrives s.os l) d.device = some d' →
      (setDrives s l).drive = some d') ∧
    (findDrive (annotateDrives s.os l) d.device = none →
      (∀ u, annotateDrives s.os l = [u] →
        isSelectableIn { s with drives := annotateDrives s.os l, drive := none } u
          = false) →
      (setDrives s l).drive = none) ∧
    (findDrive (annotateDrives s.os l) d.device = none →
      ∀ u, annotateDrives s.os l = [u] →
        isSelectableIn { s with drives := annotateDrives s.os l, drive := none } u
          = true →
        (setDrives s l).drive = some u) := by
  refine ⟨?_, ?_, ?_⟩
  · intro d' hfind
    unfold setDrives
    rw [hsel]
    dsimp only
    rw [hfind]
  · intro hfind hns
    unfold setDrives
    rw [hsel]
    dsimp only
    rw [hfind]
    cases hl : annotateDrives s.os l with
    | nil => rfl
    | cons a rest =>
      cases rest with
      | nil =>
        have hfalse := hns a hl
        rw [hl] at hfalse
        dsimp only
        rw [hfalse]
        rfl
      | cons b rest2 => rfl
  · intro hfind u hl hsel2
    unfold setDrives
    rw [hsel]
    dsimp only
    rw [hfind, hl]
    rw [hl] at hsel2
    dsimp only
    rw [hsel2]
    rfl

/-- Witness for the amended C2, at the concrete replacement of the cited
test: the lone remaining selectable `/dev/disk2` ends up selected. -/
theorem C2_witness :
    (setDrives sSelected [disk2]).drive = some disk2A := by
  exact (C2_catalog_replacement sSelected [disk2] disk1A rfl).2.2 rfl disk2A rfl rfl

/-- Claim C3.  `setDrive` raises a distinct error for each failure
condition — identity not a string, identity not in the catalog, matched
device write-protected, matched device smaller than the (plain or
OS-derived) effective image — and a failed call leaves the whole prior
selection (device, image, OS) unchanged; on success the selected Device is
replaced by the matched descriptor. -/
theorem C3_setDrive_errors_atomic (s : SelState) (v : JVal) :
    (∀ e, setDrive s v = .error e → attemptSel (setDrive s v) s = s) ∧
    ((∀ t, v ≠ JVal.str t) → setDrive s v = .error (.invalidDrive v)) ∧
    (∀ dev, v = JVal.str dev → findDrive s.drives dev = none →
      setDrive s v = .error (.driveNotAvailable dev)) ∧
    (∀ dev d, v = JVal.str dev → findDrive s.drives dev = some d →
      d.protectedFlag = true → setDrive s v = .error .driveWriteProtected) ∧
    (∀ dev d img, v = JVal.str dev → findDrive s.drives dev = some d →
      d.protectedFlag = false → effectiveImageFor s d = some img →
      d.size < img.size → setDrive s v = .error .driveNotLargeEnough) ∧
    (∀ dev d, v = JVal.str dev → findDrive s.drives dev = some d →
      d.protectedFlag = false →
      (∀ img, effectiveImageFor s d = some img → img.size ≤ d.size) →
      setDrive s v = .ok { s with drive := some d }) := by
  refine ⟨?_, ?_, ?_, ?_, ?_, ?_⟩
  · intro e he
    unfold attemptSel
    rw [he]
  · intro hnot
    cases v with
    | undef => rfl
    | num n => rfl
    | str t => exact absurd rfl (hnot t)
  · intro dev hv hfind
    subst hv
    simp only [setDrive]
    rw [hfind]
  · intro dev d hv hfind hprot
    subst hv
    simp only [setDrive]
    rw [hfind]
    simp [hprot]
  · intro dev d img hv hfind hprot heff hlt
    subst hv
    simp only [setDrive]
    rw [hfind]
    simp [hprot, heff, hlt]
  · intro dev d hv hfind hprot hfits
    subst hv
    simp only [setDrive]
    rw [hfind]
    cases heff : effectiveImageFor s d with
    | none => simp [hprot, heff]
    | some img =>
      have hle := hfits img heff
      simp [hprot, heff, not_lt.mpr hle]

/-- Witness for C3: selecting `/dev/disk1` in the two-drive test catalog
succeeds and stores the annotated descriptor. -/
theorem C3_witness :
    setDrive sTwoDrives (JVal.str "/dev/disk1") =
      .ok { sTwoDrives with drive := some disk1A } := by
  refine (C3_setDrive_errors_atomic sTwoDrives
    (JVal.str "/dev/disk1")).2.2.2.2.2 "/dev/disk1" disk1A rfl rfl rfl ?_
  intro img himg
  have : img = variantToImage osFixture osImg4 := by
    have h : effectiveImageFor sTwoDrives disk1A
        = some (variantToImage osFixture osImg4) := rfl
    rw [h] at himg
    exact (Option.some.inj himg).symm
  rw [this]
  norm_num [variantToImage, osImg4, disk1A, disk1]

/-- Claim C4.  When a device is selected and a descriptor passes
validation, `setImage` succeeds with no error even if (a) the device is
smaller than the image, (b) the descriptor declares a recommended drive
size the device does not meet, or (c) one of the device's mount-point paths
is a filesystem ancestor directory of the image's path — in each case the
image is stored (the OS selection superseded) and the device selection is
silently cleared. -/
theorem C4_setImage_clears_incompatible_drive (s : SelState)
    (desc : ImageDescriptor) (p : String) (n : ℚ) (dr : Drive)
    (hdrv : s.drive = some dr)
    (hval : validateImage desc = .ok (p, n))
    (hcond : dr.size < n ∨
      (∃ r, desc.recommendedDriveSize = JVal.num r ∧ dr.size < r) ∨
      (∃ m ∈ dr.mountpoints, isAncestorOf m.path p = true)) :
    setImage s desc =
      .ok { s with image := some (mkImage p n desc), os := none, drive := none } := by
  unfold setImage
  rw [hval]
  dsimp only
  rw [hdrv]
  have hclear : shouldClearDrive dr (mkImage p n desc) = true := by
    unfold shouldClearDrive
    rcases hcond with h | ⟨r, hr, h⟩ | ⟨m, hm, h⟩
    · simp only [mkImage]
      simp [h]
    · simp only [mkImage, hr, JVal.asNum]
      simp [h]
    · simp only [mkImage]
      simp only [Bool.or_eq_true, List.any_eq_true]
      exact Or.inr ⟨m, hm, h⟩
  dsimp only
  rw [hclear]
  rfl

/-- Witness for C4 in the scenario of the test "should de-select a
previously selected not-large-enough drive": a 999999999-byte drive is
silently dropped when a 9999999999-byte image is set. -/
theorem C4_witness :
    setImage sSmallDrive bigDesc =
      .ok { sSmallDrive with
              image := some (mkImage "foo.img" 9999999999 bigDesc)
              os := none
              drive := none } :=
  C4_setImage_clears_incompatible_drive sSmallDrive bigDesc "foo.img"
    9999999999 smallDrive rfl rfl (Or.inl (by norm_num [smallDrive]))

theorem validateImage_ok (d : ImageDescriptor) (p : String) (n : ℚ)
    (hpath : d.path = JVal.str p) (hsize : d.size = JVal.num n)
    (hurl : ∀ w, d.url ≠ JVal.num w) (hname : ∀ w, d.name ≠ JVal.num w)
    (hlogo : ∀ w, d.logo ≠ JVal.num w) (hsup : ∀ w, d.supportUrl ≠ JVal.num w) :
    validateImage d = .ok (p, n) := by
  unfold validateImage
  rw [hpath, hsize]
  cases hu : d.url <;>
    first
      | exact absurd hu (hurl _)
      | (cases hn : d.name <;>
          first
            | exact absurd hn (hname _)
            | (cases hl : d.logo <;>
                first
                  | exact absurd hl (hlogo _)
                  | (cases hsu : d.supportUrl <;>
                      first
                        | exact absurd hsu (hsup _)
                        | rfl)))

/-- Claim C5.  `setImage` validation: a missing or non-string path, a
missing or non-number size, and a present but non-string url, name or logo
each raise the `InvalidArgument`-style error naming that field (all distinct
constructors of `SelErr`), every failure leaves the stored selection
unchanged, and a descriptor with a string path, a numeric size and
well-typed optional fields succeeds and replaces the selected Image. -/
theorem C5_setImage_validation (s : SelState) (d : ImageDescriptor) :
    (d.path = JVal.undef → setImage s d = .error .missingImagePath) ∧
    (∀ q, d.path = JVal.num q →
      setImage s d = .error (.invalidImagePath (JVal.num q))) ∧
    (∀ p, d.path = JVal.str p → d.size = JVal.undef →
      setImage s d = .error .missingImageSize) ∧
    (∀ p z, d.path = JVal.str p → d.size = JVal.str z →
      setImage s d = .error (.invalidImageSize (JVal.str z))) ∧
    (∀ p q u, d.path = JVal.str p → d.size = JVal.num q →
      d.url = JVal.num u →
      setImage s d = .error (.invalidImageUrl (JVal.num u))) ∧
    (∀ p q u, d.path = JVal.str p → d.size = JVal.num q →
      (∀ w, d.url ≠ JVal.num w) → d.name = JVal.num u →
      setImage s d = .error (.invalidImageName (JVal.num u))) ∧
    (∀ p q u, d.path = JVal.str p → d.size = JVal.num q →
      (∀ w, d.url ≠ JVal.num w) → (∀ w, d.name ≠ JVal.num w) →
      d.logo = JVal.num u →
      setImage s d = .error (.invalidImageLogo (JVal.num u))) ∧
    (∀ e, setImage s d = .error e → attemptSel (setImage s d) s = s) ∧
    (∀ p q, d.path = JVal.str p → d.size = JVal.num q →
      (∀ w, d.url ≠ JVal.num w) → (∀ w, d.name ≠ JVal.num w) →
      (∀ w, d.logo ≠ JVal.num w) → (∀ w, d.supportUrl ≠ JVal.num w) →
      ∃ s', setImage s d = .ok s' ∧ s'.image = some (mkImage p q d)) := by
  refine ⟨?_, ?_, ?_, ?_, ?_, ?_, ?_, ?_, ?_⟩
  · intro hpath
    have hv : validateImage d = .error .missingImagePath := by
      unfold validateImage
      rw [hpath]
    unfold setImage
    rw [hv]
  · intro q hpath
    have hv : validateImage d = .error (.invalidImagePath (JVal.num q)) := by
      unfold validateImage
      rw [hpath]
    unfold setImage
    rw [hv]
  · intro p hpath hsize
    have hv : validateImage d = .error .missingImageSize := by
      unfold validateImage
      rw [hpath, hsize]
    unfold setImage
    rw [hv]
  · intro p z hpath hsize
    have hv : validateImage d = .error (.invalidImageSize (JVal.str z)) := by
      unfold validateImage
      rw [hpath, hsize]
    unfold setImage
    rw [hv]
  · intro p q u hpath hsize hurl
    have hv : validateImage d = .error (.invalidImageUrl (JVal.num u)) := by
      unfold validateImage
      rw [hpath, hsize, hurl]
    unfold setImage
    rw [hv]
  · intro p q u hpath hsize hurl hnameEq
    have hv : validateImage d = .error (.invalidImageName (JVal.num u)) := by
      unfold validateImage
      rw [hpath, hsize]
      cases hu : d.url <;>
        first
          | exact absurd hu (hurl _)
          | rw [hnameEq]
    unfold setImage
    rw [hv]
  · intro p q u hpath hsize hurl hname hlogoEq
    have hv : validateImage d = .error (.invalidImageLogo (JVal.num u)) := by
      unfold validateImage
      rw [hpath, hsize]
      cases hu : d.url <;>
        first
          | exact absurd hu (hurl _)
          | (cases hn : d.name <;>
              first
                | exact absurd hn (hname _)
                | rw [hlogoEq])
    unfold setImage
    rw [hv]
  · intro e he
    unfold attemptSel
    rw [he]
  · intro p q hpath hsize hurl hname hlogo hsup
    have hv : validateImage d = .ok (p, q) :=
      validateImage_ok d p q hpath hsize hurl hname hlogo hsup
    unfold setImage
    rw [hv]
    dsimp only
    cases hdr : s.drive with
    | none => exact ⟨_, rfl, rfl⟩
    | some dr =>
      dsimp only
      by_cases hc : shouldClearDrive dr (mkImage p q d) = true
      · rw [hc]
        exact ⟨_, rfl, rfl⟩
      · rw [Bool.not_eq_true] at hc
        rw [hc]
        exact ⟨_, rfl, rfl⟩

/-- Witness for C5: the concrete descriptors of the validation tests — a
missing path is rejected, and a plain `{path, size}` descriptor is stored. -/
theorem C5_witness :
    setImage emptySel { size := .num 999999999 } = .error .missingImagePath ∧
    ∃ s', setImage emptySel { path := .str "foo.img", size := .num 999999999 }
        = .ok s' ∧
      s'.image = some (mkImage "foo.img" 999999999
        { path := .str "foo.img", size := .num 999999999 }) := by
  constructor
  · exact (C5_setImage_validation emptySel { size := .num 999999999 }).1 rfl
  · exact (C5_setImage_validation emptySel
      { path := .str "foo.img", size := .num 999999999 }).2.2.2.2.2.2.2.2
      "foo.img" 999999999 rfl rfl
      (fun w h => by cases h) (fun w h => by cases h)
      (fun w h => by cases h) (fun w h => by cases h)

/-- Claim C6.  `clear({preserveImage: true})` resets only the Device — the
stored Image and OS selections are untouched — while `clear()` with default
options resets Device, Image and OS; the Device is reset in either case. -/
theorem C6_clear_semantics (s : SelState) :
    clear s { preserveImage := true } = { s with drive := none } ∧
    hasDrive (clear s { preserveImage := true }) = false ∧
    (clear s { preserveImage := true }).image = s.image ∧
    (clear s { preserveImage := true }).os = s.os ∧
    clear s {} = { s with drive := none, image := none, os := none } ∧
    (clear s {}).drive = none :=
  ⟨rfl, rfl, rfl, rfl, rfl, rfl⟩
